import Mathlib

/-!
Shallow embedding of the Progress Tracking Agent
(`data_models.py`, `processor.py`, `main.py`).

Numbers: Python floats for scores/thresholds are modelled as rationals
(`ℚ`); `round(x, 1)` is modelled as exact banker's rounding (round half
to even, Python's rule) at one decimal on `ℚ`.  Timestamps are opaque
`Nat` values.  String-keyed Python dicts are modelled as association
lists with last-write-wins insertion.
-/

namespace ProgressAgent

/-- Association-list lookup for string-keyed dicts. -/
def mlookup {α : Type} : List (String × α) → String → Option α
  | [], _ => none
  | (k, v) :: rest, key => if key = k then some v else mlookup rest key

/-- Association-list insert (replace the binding if the key exists, else append). -/
def minsert {α : Type} : List (String × α) → String → α → List (String × α)
  | [], key, v => [(key, v)]
  | (k, w) :: rest, key, v =>
      if key = k then (k, v) :: rest else (k, w) :: minsert rest key v

theorem mlookup_minsert_self {α : Type} (m : List (String × α)) (k : String) (v : α) :
    mlookup (minsert m k v) k = some v := by
  induction m with
  | nil => simp [minsert, mlookup]
  | cons p rest ih =>
      obtain ⟨k1, w⟩ := p
      by_cases h : k = k1
      · simp [minsert, mlookup, h]
      · simp [minsert, mlookup, h, ih]

theorem mlookup_minsert_ne {α : Type} (m : List (String × α)) (k k2 : String) (v : α)
    (hne : k2 ≠ k) : mlookup (minsert m k v) k2 = mlookup m k2 := by
  induction m with
  | nil => simp [minsert, mlookup, hne]
  | cons p rest ih =>
      obtain ⟨k1, w⟩ := p
      by_cases h : k = k1
      · subst h
        simp [minsert, mlookup, hne]
      · by_cases h2 : k2 = k1
        · simp [minsert, mlookup, h, h2]
        · simp [minsert, mlookup, h, h2, ih]

/-- Round a rational to the nearest integer, ties to even (Python's `round`). -/
def roundHalfEven (q : ℚ) : ℤ :=
  let f : ℤ := ⌊q⌋
  let frac : ℚ := q - f
  if frac < 1/2 then f
  else if 1/2 < frac then f + 1
  else if f % 2 = 0 then f else f + 1

/-- Python `round(x, 1)`: one decimal place, ties to even. -/
def round1 (q : ℚ) : ℚ := (roundHalfEven (10 * q) : ℚ) / 10

/-- Arithmetic mean of a list of rationals (`statistics.mean`). -/
def listMean (l : List ℚ) : ℚ := l.sum / (l.length : ℚ)

/-- `StudentProgressSettings` from `data_models.py`: per-student configuration.
`success_threshold` defaults to 80. -/
structure StudentProgressSettings where
  student_id : String
  success_threshold : ℚ := 80
  learning_goals : List String := []
  deriving Repr, DecidableEq

/-- `ProgressEventInput` from `data_models.py`.  `details` models the optional
dict payload: `none` when the dict is absent or empty, `some a` when present,
with `a` the optional value of its `attempts` key (`details.get` yields the
default for a missing key, matching the falsy empty dict). -/
structure ProgressEventInput where
  student_id : String
  topic_id : String
  event_type : String
  timestamp : Nat
  score : Option ℚ := none
  duration_minutes : Option Nat := none
  details : Option (Option ℤ) := none
  deriving Repr, DecidableEq

/-- The `attempts` increment read from the event payload:
`event.details.get('attempts', 1) if event.details else 1`. -/
def attemptCount (e : ProgressEventInput) : ℤ :=
  match e.details with
  | none => 1
  | some a => a.getD 1

/-- `TopicProgressData` from `data_models.py`: aggregated per-topic progress. -/
structure TopicProgressData where
  topic_id : String
  status : String := "Not Started"
  attempts : ℤ := 0
  scores : List ℚ := []
  average_score : Option ℚ := none
  total_time_minutes : Nat := 0
  last_activity_type : Option String := none
  last_updated : Nat := 0
  deriving Repr, DecidableEq

namespace TopicProgressData

/-- `TopicProgressData.update_progress` from `data_models.py`, as a pure
state transformer. -/
def update_progress (tp : TopicProgressData) (e : ProgressEventInput) : TopicProgressData :=
  let tp1 := { tp with last_updated := e.timestamp, last_activity_type := some e.event_type }
  let tp2 := if tp1.status = "Not Started" then { tp1 with status := "In Progress" } else tp1
  if e.event_type = "quiz_attempted" then
    match e.score with
    | some s =>
        let newScores := tp2.scores ++ [s]
        { tp2 with
          attempts := tp2.attempts + attemptCount e
          scores := newScores
          average_score :=
            if newScores.isEmpty then none else some (round1 (listMean newScores)) }
    | none => tp2
  else if e.event_type = "topic_completed" then
    { tp2 with status := "Completed" }
  else if e.event_type = "session_duration_minutes" then
    match e.duration_minutes with
    | some d => { tp2 with total_time_minutes := tp2.total_time_minutes + d }
    | none => tp2
  else if e.event_type = "needs_review" then
    { tp2 with status := "Needs Review" }
  else tp2

end TopicProgressData

/-- The advisory signal emitted by the threshold check in
`ProgressProcessor.update_topic_progress` (the simulated trigger carrying
topic id, score and threshold). -/
structure ReviewSignal where
  topic_id : String
  score : ℚ
  threshold : ℚ
  deriving Repr, DecidableEq

/-- The in-memory state of a `ProgressProcessor`: `progress_db` maps
student id to a topic-id-keyed map of `TopicProgressData`;
`student_settings_db` maps student id to saved settings. -/
structure ProcState where
  progress_db : List (String × List (String × TopicProgressData)) := []
  student_settings_db : List (String × StudentProgressSettings) := []
  deriving Repr, DecidableEq

namespace ProcState

/-- Topic map stored for a student (`progress_db` defaults to an empty dict). -/
def studentData (st : ProcState) (sid : String) : List (String × TopicProgressData) :=
  (mlookup st.progress_db sid).getD []

/-- The stored record for a (student, topic) pair, when present. -/
def topicRec (st : ProcState) (sid tid : String) : Option TopicProgressData :=
  mlookup (st.studentData sid) tid

/-- The threshold the engine uses for a student:
`self.student_settings_db.get(student_id, StudentProgressSettings(student_id=student_id))`. -/
def thresholdFor (st : ProcState) (sid : String) : ℚ :=
  ((mlookup st.student_settings_db sid).getD
    { student_id := sid }).success_threshold

end ProcState

/-- The threshold check in `ProgressProcessor.update_topic_progress`, applied
after the kind-specific update: a quiz score strictly below the student's
threshold forces the status to Needs Review and emits the review signal. -/
def thresholdCheck (threshold : ℚ) (e : ProgressEventInput) (tp1 : TopicProgressData) :
    TopicProgressData × Option ReviewSignal :=
  if e.event_type = "quiz_attempted" then
    match e.score with
    | some s =>
        if s < threshold then
          ({ tp1 with status := "Needs Review" },
           some { topic_id := e.topic_id, score := s, threshold := threshold })
        else (tp1, none)
    | none => (tp1, none)
  else (tp1, none)

/-- `ProgressProcessor.update_topic_progress` from `processor.py`: look up or
lazily create the topic record, apply the kind-specific update, run the
threshold check, store the result, and report the emitted review signal. -/
def update_topic_progress (st : ProcState) (e : ProgressEventInput) :
    ProcState × Option ReviewSignal :=
  let studentData := st.studentData e.student_id
  let tp0 := (mlookup studentData e.topic_id).getD { topic_id := e.topic_id }
  let tp1 := tp0.update_progress e
  let checked := thresholdCheck (st.thresholdFor e.student_id) e tp1
  ({ st with
      progress_db :=
        minsert st.progress_db e.student_id (minsert studentData e.topic_id checked.1) },
   checked.2)

/-- Fold a list of progress events through the engine, discarding signals. -/
def processEvents (st : ProcState) (evs : List ProgressEventInput) : ProcState :=
  evs.foldl (fun s e => (update_topic_progress s e).1) st

/-- `ProgressProcessor.save_settings` from `processor.py`: reject a payload
whose student id disagrees with the path id before touching the store,
otherwise store and echo the settings.  Returns the resulting settings
store alongside the outcome. -/
def save_settings (db : List (String × StudentProgressSettings)) (sid : String)
    (settings : StudentProgressSettings) :
    List (String × StudentProgressSettings) × Except Unit StudentProgressSettings :=
  if sid ≠ settings.student_id then (db, Except.error ())
  else (minsert db sid settings, Except.ok settings)

/-- `ProgressProcessor.get_settings` from `processor.py`: stored settings, or
a default-constructed value (never persisted) when absent. -/
def get_settings (db : List (String × StudentProgressSettings)) (sid : String) :
    StudentProgressSettings :=
  (mlookup db sid).getD { student_id := sid }

/-- `ProgressSummaryOutput` from `data_models.py` (the wall-clock
`generated_at` default is omitted).  `identified_weaknesses` is built by
`list(set(...))` in the source, so it is modelled as a finite set. -/
structure ProgressSummaryOutput where
  student_id : String
  overall_completion_percent : ℚ := 0
  average_score_all : Option ℚ := none
  total_study_time_minutes : Nat := 0
  topics_progress : List TopicProgressData := []
  identified_weaknesses : Finset String := ∅
  llm_insights : Option String := none
  deriving DecidableEq

/-- Accumulator of the metrics loop in `ProgressProcessor.get_progress_summary`. -/
structure SummaryAcc where
  completed_topics : Nat := 0
  all_scores : List ℚ := []
  total_study_time : Nat := 0
  identified_weaknesses : List String := []
  deriving Repr, DecidableEq

/-- One iteration of the metrics loop in `get_progress_summary`. -/
def summaryStep (threshold : ℚ) (acc : SummaryAcc) (topic : TopicProgressData) :
    SummaryAcc :=
  let acc1 :=
    if topic.status = "Completed" then
      { acc with completed_topics := acc.completed_topics + 1 }
    else acc
  let acc2 :=
    if topic.scores.isEmpty then acc1
    else { acc1 with all_scores := acc1.all_scores ++ topic.scores }
  let acc3 := { acc2 with total_study_time := acc2.total_study_time + topic.total_time_minutes }
  if (topic.status == "Needs Review") ||
      (match topic.average_score with
       | some a => decide (a < threshold)
       | none => false) then
    { acc3 with identified_weaknesses := acc3.identified_weaknesses ++ [topic.topic_id] }
  else acc3

/-- The fixed fallback text used when the text-generation call raises. -/
def llmErrorFallback : String := "Could not generate insights at this time due to an error."

/-- The fixed fallback text used when the text-generation collaborator is not configured. -/
def llmUnavailableFallback : String := "LLM insights feature not available."

/-- `ProgressProcessor.get_progress_summary` from `processor.py`.  The
external text-generation collaborator is modelled by two inputs: whether it
is configured (`llmAvailable`, the `LLM_AVAILABLE and self.llm and
self.insight_prompt_template` guard) and the outcome of invoking it
(`llmResult`; `Except.error` models a raised exception).  The not-found
`ValueError` is modelled as `Except.error ()`. -/
def get_progress_summary (st : ProcState) (sid : String)
    (llmAvailable : Bool) (llmResult : Except Unit String) :
    Except Unit ProgressSummaryOutput :=
  let student_topic_data := st.studentData sid
  let settings := (mlookup st.student_settings_db sid).getD { student_id := sid }
  if student_topic_data.isEmpty ∧ mlookup st.student_settings_db sid = none then
    Except.error ()
  else
    let topics_progress_list := student_topic_data.map Prod.snd
    let acc := topics_progress_list.foldl (summaryStep settings.success_threshold) {}
    let total_topics := topics_progress_list.length
    let overall_completion : ℚ :=
      if 0 < total_topics then (acc.completed_topics : ℚ) / (total_topics : ℚ) * 100 else 0
    let overall_avg_score : Option ℚ :=
      if acc.all_scores.isEmpty then none else some (round1 (listMean acc.all_scores))
    let llm_insight_text : String :=
      if llmAvailable then
        match llmResult with
        | Except.ok s => s
        | Except.error _ => llmErrorFallback
      else llmUnavailableFallback
    Except.ok
      { student_id := sid
        overall_completion_percent := round1 overall_completion
        average_score_all := overall_avg_score
        total_study_time_minutes := acc.total_study_time
        topics_progress := topics_progress_list
        identified_weaknesses := acc.identified_weaknesses.toFinset
        llm_insights := some llm_insight_text }

/-! ### Derived definitions and concrete instances -/

/-- The record the engine reads for the event's (student, topic) pair:
the stored one, or a lazily created fresh record. -/
def readTopic (st : ProcState) (e : ProgressEventInput) : TopicProgressData :=
  (mlookup (st.studentData e.student_id) e.topic_id).getD { topic_id := e.topic_id }

/-- The status stored for the event's (student, topic) pair after the engine
has processed the event. -/
def statusAfterUpdate (st : ProcState) (e : ProgressEventInput) : Option String :=
  ((update_topic_progress st e).1.topicRec e.student_id e.topic_id).map
    TopicProgressData.status

/-- A processor state holding one topic `t1` of student `s1` whose status is
Completed. -/
def c1State : ProcState :=
  { progress_db := [("s1", [("t1", { topic_id := "t1", status := "Completed" })])] }

/-- An explicit needs-review event for that topic. -/
def c1Event : ProgressEventInput :=
  { student_id := "s1", topic_id := "t1", event_type := "needs_review", timestamp := 7 }

/-- A state and a completing event used to witness the amended C1. -/
def c1WState : ProcState :=
  { progress_db := [("s1", [("t2", { topic_id := "t2", status := "Needs Review" })])] }

/-- A completing event for topic `t2`. -/
def c1WEvent : ProgressEventInput :=
  { student_id := "s1", topic_id := "t2", event_type := "topic_completed", timestamp := 9 }

/-- A state with saved settings (threshold 75) for student `s2`. -/
def c2State : ProcState :=
  { student_settings_db := [("s2", { student_id := "s2", success_threshold := 75 })] }

/-- A quiz event for student `s2` scoring 60. -/
def c2Event : ProgressEventInput :=
  { student_id := "s2", topic_id := "t1", event_type := "quiz_attempted",
    timestamp := 3, score := some 60 }

/-- A processor state holding nothing at all. -/
def c2EmptyState : ProcState := {}

/-- An event from a student with no saved settings. -/
def c2DefEvent : ProgressEventInput :=
  { student_id := "s9", topic_id := "t", event_type := "quiz_attempted",
    timestamp := 0, score := some 90 }

/-- The list of topic records stored for a student (the dict's values). -/
def topicsOf (st : ProcState) (sid : String) : List TopicProgressData :=
  (st.studentData sid).map Prod.snd

/-- The scores list stored for a (student, topic) pair, empty when no record
exists. -/
def scoresAt (st : ProcState) (sid tid : String) : List ℚ :=
  ((st.topicRec sid tid).map TopicProgressData.scores).getD []

/-- The claim's reference list: the scores carried by the quiz_attempted
events of a given (student, topic) pair, in arrival order. -/
def quizScoresOf (evs : List ProgressEventInput) (sid tid : String) : List ℚ :=
  evs.filterMap (fun e =>
    if e.student_id = sid ∧ e.topic_id = tid ∧ e.event_type = "quiz_attempted"
    then e.score else none)

/-- The per-record average invariant: the stored average is the rounded mean
of the stored scores, `none` exactly on an empty scores list. -/
def avgInv (tp : TopicProgressData) : Prop :=
  tp.average_score =
    if tp.scores.isEmpty then none else some (round1 (listMean tp.scores))

/-- All topic records reachable in the progress store satisfy `avgInv`. -/
def storeAvgInv (st : ProcState) : Prop :=
  ∀ sid tid tp, st.topicRec sid tid = some tp → avgInv tp

/-- A single scored quiz event for student `s4`, topic `t4`. -/
def c4Event : ProgressEventInput :=
  { student_id := "s4", topic_id := "t4", event_type := "quiz_attempted",
    timestamp := 1, score := some 60 }

/-- The record stored for (`s4`, `t4`) after processing `c4Event` from an
empty store: the below-default-threshold score forces Needs Review. -/
def c4Topic : TopicProgressData :=
  { topic_id := "t4", status := "Needs Review", attempts := 1, scores := [60],
    average_score := some 60, total_time_minutes := 0,
    last_activity_type := some "quiz_attempted", last_updated := 1 }

/-- Every topic record held anywhere in the progress store has left the
Not Started status. -/
def storeStatusInv (st : ProcState) : Prop :=
  ∀ p ∈ st.progress_db, ∀ q ∈ p.2, q.2.status ≠ "Not Started"

/-- A completing event used by the C10 witness. -/
def c10Event : ProgressEventInput :=
  { student_id := "sX", topic_id := "tX", event_type := "topic_completed",
    timestamp := 2 }

/-! ### Plumbing lemmas -/

theorem topicRec_update_self (st : ProcState) (e : ProgressEventInput) :
    (update_topic_progress st e).1.topicRec e.student_id e.topic_id =
      some (thresholdCheck (st.thresholdFor e.student_id) e
        ((readTopic st e).update_progress e)).1 := by
  simp [update_topic_progress, ProcState.topicRec, ProcState.studentData, readTopic,
    mlookup_minsert_self]

theorem topicRec_update_other (st : ProcState) (e : ProgressEventInput) (sid tid : String)
    (h : ¬(sid = e.student_id ∧ tid = e.topic_id)) :
    (update_topic_progress st e).1.topicRec sid tid = st.topicRec sid tid := by
  by_cases hs : sid = e.student_id
  · subst hs
    have ht : tid ≠ e.topic_id := fun hh => h ⟨rfl, hh⟩
    simp [update_topic_progress, ProcState.topicRec, ProcState.studentData,
      mlookup_minsert_self, mlookup_minsert_ne _ _ _ _ ht]
  · simp [update_topic_progress, ProcState.topicRec, ProcState.studentData,
      mlookup_minsert_ne _ _ _ _ hs]

theorem settings_update_unchanged (st : ProcState) (e : ProgressEventInput) :
    (update_topic_progress st e).1.student_settings_db = st.student_settings_db := rfl

/-- Status after the kind-specific update, as a case table over the event kind. -/
theorem update_progress_status (tp : TopicProgressData) (e : ProgressEventInput) :
    (tp.update_progress e).status =
      if e.event_type = "topic_completed" then "Completed"
      else if e.event_type = "needs_review" then "Needs Review"
      else if tp.status = "Not Started" then "In Progress"
      else tp.status := by
  obtain ⟨sid, tid, ty, ts, sc, dm, dt⟩ := e
  simp only [TopicProgressData.update_progress]
  cases sc <;> cases dm <;>
    by_cases hq : ty = "quiz_attempted" <;>
    by_cases hc : ty = "topic_completed" <;>
    by_cases hn : ty = "needs_review" <;>
    by_cases hsd : ty = "session_duration_minutes" <;>
    by_cases hns : tp.status = "Not Started" <;>
    simp_all

/-- The threshold check never changes anything for a non-quiz event or a
score-free quiz event. -/
theorem thresholdCheck_skip (threshold : ℚ) (e : ProgressEventInput)
    (tp1 : TopicProgressData) (h : e.event_type ≠ "quiz_attempted" ∨ e.score = none) :
    thresholdCheck threshold e tp1 = (tp1, none) := by
  rcases h with h | h
  · simp [thresholdCheck, h]
  · by_cases hq : e.event_type = "quiz_attempted" <;> simp [thresholdCheck, h, hq]

/-- The threshold check passes the record through for an at-threshold score. -/
theorem thresholdCheck_pass (threshold : ℚ) (e : ProgressEventInput)
    (tp1 : TopicProgressData) (s : ℚ) (hs : e.score = some s) (hge : ¬s < threshold) :
    thresholdCheck threshold e tp1 = (tp1, none) := by
  by_cases hq : e.event_type = "quiz_attempted" <;> simp [thresholdCheck, hq, hs, hge]

/-- The threshold check forces Needs Review and emits the signal for a
below-threshold quiz score. -/
theorem thresholdCheck_force (threshold : ℚ) (e : ProgressEventInput)
    (tp1 : TopicProgressData) (s : ℚ) (hq : e.event_type = "quiz_attempted")
    (hs : e.score = some s) (hlt : s < threshold) :
    thresholdCheck threshold e tp1 =
      ({ tp1 with status := "Needs Review" },
       some { topic_id := e.topic_id, score := s, threshold := threshold }) := by
  simp [thresholdCheck, hq, hs, hlt]

theorem signal_update (st : ProcState) (e : ProgressEventInput) :
    (update_topic_progress st e).2 =
      (thresholdCheck (st.thresholdFor e.student_id) e
        ((readTopic st e).update_progress e)).2 := rfl

/-! ### Claim C1 -/

/-- C1, counterexample: a `needs_review` event — a non-completing event — applied
to a topic whose status is Completed moves the status out of Completed (to
Needs Review), contradicting the claim that a non-completing event never moves
the status out of Completed. -/
theorem c1_counterexample :
    (c1State.topicRec "s1" "t1").map TopicProgressData.status = some "Completed" ∧
    c1Event.event_type = "needs_review" ∧
    statusAfterUpdate c1State c1Event = some "Needs Review" ∧
    statusAfterUpdate c1State c1Event ≠ some "Completed" := by
  refine ⟨rfl, rfl, rfl, ?_⟩
  decide

/-- C1, amended: a TopicCompleted event always sets the status to Completed
regardless of prior status; a SessionDuration event, an unrecognized kind, or
a QuizAttempted event whose score is absent or at/above the student's
threshold never moves a Completed status out of Completed; but a NeedsReview
event, or a QuizAttempted event whose score is strictly below the threshold,
moves even a Completed topic to Needs Review. -/
theorem c1_completed_status_transitions (st : ProcState) (e : ProgressEventInput) :
    (e.event_type = "topic_completed" → statusAfterUpdate st e = some "Completed") ∧
    ((readTopic st e).status = "Completed" →
      ((e.event_type = "session_duration_minutes" ∨
        e.event_type ∉ (["quiz_attempted", "topic_completed",
          "session_duration_minutes", "needs_review"] : List String) ∨
        (e.event_type = "quiz_attempted" ∧ e.score = none) ∨
        (e.event_type = "quiz_attempted" ∧
          ∃ s, e.score = some s ∧ st.thresholdFor e.student_id ≤ s)) →
        statusAfterUpdate st e = some "Completed") ∧
      ((e.event_type = "needs_review" ∨
        (e.event_type = "quiz_attempted" ∧
          ∃ s, e.score = some s ∧ s < st.thresholdFor e.student_id)) →
        statusAfterUpdate st e = some "Needs Review")) := by
  have hrec := topicRec_update_self st e
  constructor
  · intro hc
    have hskip : thresholdCheck (st.thresholdFor e.student_id) e
        ((readTopic st e).update_progress e) =
        ((readTopic st e).update_progress e, none) := by
      refine thresholdCheck_skip _ _ _ (Or.inl ?_)
      rw [hc]; decide
    simp [statusAfterUpdate, hrec, hskip, update_progress_status, hc]
  · intro hcomp
    constructor
    · rintro (h | h | ⟨hq, hsc⟩ | ⟨hq, s, hs, hge⟩)
      · have hskip : thresholdCheck (st.thresholdFor e.student_id) e
            ((readTopic st e).update_progress e) =
            ((readTopic st e).update_progress e, none) := by
          refine thresholdCheck_skip _ _ _ (Or.inl ?_)
          rw [h]; decide
        have h1 : e.event_type ≠ "topic_completed" := by rw [h]; decide
        have h2 : e.event_type ≠ "needs_review" := by rw [h]; decide
        have h3 : (readTopic st e).status ≠ "Not Started" := by rw [hcomp]; decide
        simp [statusAfterUpdate, hrec, hskip, update_progress_status, h1, h2, h3, hcomp]
      · simp only [List.mem_cons, List.mem_singleton, not_or] at h
        obtain ⟨h1, h2, h3, h4, -⟩ := h
        have hskip : thresholdCheck (st.thresholdFor e.student_id) e
            ((readTopic st e).update_progress e) =
            ((readTopic st e).update_progress e, none) :=
          thresholdCheck_skip _ _ _ (Or.inl h1)
        have h5 : (readTopic st e).status ≠ "Not Started" := by rw [hcomp]; decide
        simp [statusAfterUpdate, hrec, hskip, update_progress_status, h2, h3, h4, h5, hcomp]
      · have hskip : thresholdCheck (st.thresholdFor e.student_id) e
            ((readTopic st e).update_progress e) =
            ((readTopic st e).update_progress e, none) :=
          thresholdCheck_skip _ _ _ (Or.inr hsc)
        have h1 : e.event_type ≠ "topic_completed" := by rw [hq]; decide
        have h2 : e.event_type ≠ "needs_review" := by rw [hq]; decide
        have h3 : (readTopic st e).status ≠ "Not Started" := by rw [hcomp]; decide
        simp [statusAfterUpdate, hrec, hskip, update_progress_status, h1, h2, h3, hcomp]
      · have hskip : thresholdCheck (st.thresholdFor e.student_id) e
            ((readTopic st e).update_progress e) =
            ((readTopic st e).update_progress e, none) :=
          thresholdCheck_pass _ _ _ s hs (not_lt.mpr hge)
        have h1 : e.event_type ≠ "topic_completed" := by rw [hq]; decide
        have h2 : e.event_type ≠ "needs_review" := by rw [hq]; decide
        have h3 : (readTopic st e).status ≠ "Not Started" := by rw [hcomp]; decide
        simp [statusAfterUpdate, hrec, hskip, update_progress_status, h1, h2, h3, hcomp]
    · rintro (h | ⟨hq, s, hs, hlt⟩)
      · have hskip : thresholdCheck (st.thresholdFor e.student_id) e
            ((readTopic st e).update_progress e) =
            ((readTopic st e).update_progress e, none) := by
          refine thresholdCheck_skip _ _ _ (Or.inl ?_)
          rw [h]; decide
        simp [statusAfterUpdate, hrec, hskip, update_progress_status, h]
      · have hforce := thresholdCheck_force (st.thresholdFor e.student_id) e
          ((readTopic st e).update_progress e) s hq hs hlt
        simp [statusAfterUpdate, hrec, hforce]

/-- C1, witness: the amended theorem at concrete inputs — completing a
Needs Review topic yields Completed, and an explicit needs-review event on a
Completed topic yields Needs Review. -/
theorem c1_completed_status_transitions_witness :
    statusAfterUpdate c1WState c1WEvent = some "Completed" ∧
    statusAfterUpdate c1State c1Event = some "Needs Review" := by
  constructor
  · exact (c1_completed_status_transitions c1WState c1WEvent).1 rfl
  · exact ((c1_completed_status_transitions c1State c1Event).2 (by decide)).2 (Or.inl rfl)

/-! ### Claim C2 -/

/-- C2: for a quiz_attempted event carrying a score, the engine reads the
student's threshold from the settings store (80 via default settings when the
student has none saved); a score strictly below the threshold forces the
stored status to Needs Review and emits a ReviewSignal carrying topic id,
score and threshold; a score at or above the threshold, or any other event
kind (or a score-free quiz event), emits nothing and leaves the stored record
exactly the kind-specific update. -/
theorem c2_threshold_check (st : ProcState) (e : ProgressEventInput) :
    (mlookup st.student_settings_db e.student_id = none →
      st.thresholdFor e.student_id = 80) ∧
    (∀ s : ℚ, e.event_type = "quiz_attempted" → e.score = some s →
      (s < st.thresholdFor e.student_id →
        statusAfterUpdate st e = some "Needs Review" ∧
        (update_topic_progress st e).2 =
          some { topic_id := e.topic_id, score := s,
                 threshold := st.thresholdFor e.student_id }) ∧
      (st.thresholdFor e.student_id ≤ s →
        (update_topic_progress st e).2 = none ∧
        (update_topic_progress st e).1.topicRec e.student_id e.topic_id =
          some ((readTopic st e).update_progress e))) ∧
    ((e.event_type ≠ "quiz_attempted" ∨ e.score = none) →
      (update_topic_progress st e).2 = none ∧
      (update_topic_progress st e).1.topicRec e.student_id e.topic_id =
        some ((readTopic st e).update_progress e)) := by
  refine ⟨?_, ?_, ?_⟩
  · intro h
    simp [ProcState.thresholdFor, h]
  · intro s hq hs
    constructor
    · intro hlt
      have hforce := thresholdCheck_force (st.thresholdFor e.student_id) e
        ((readTopic st e).update_progress e) s hq hs hlt
      refine ⟨?_, ?_⟩
      · simp [statusAfterUpdate, topicRec_update_self, hforce]
      · rw [signal_update, hforce]
    · intro hge
      have hpass := thresholdCheck_pass (st.thresholdFor e.student_id) e
        ((readTopic st e).update_progress e) s hs (not_lt.mpr hge)
      refine ⟨?_, ?_⟩
      · rw [signal_update, hpass]
      · rw [topicRec_update_self, hpass]
  · intro h
    have hskip := thresholdCheck_skip (st.thresholdFor e.student_id) e
      ((readTopic st e).update_progress e) h
    refine ⟨?_, ?_⟩
    · rw [signal_update, hskip]
    · rw [topicRec_update_self, hskip]

/-- C2, witness: with saved threshold 75, a quiz score of 60 forces Needs
Review and emits the ReviewSignal; and for a student with no saved settings
the engine's threshold is the default 80. -/
theorem c2_threshold_check_witness :
    (statusAfterUpdate c2State c2Event = some "Needs Review" ∧
      (update_topic_progress c2State c2Event).2 =
        some { topic_id := "t1", score := 60, threshold := 75 }) ∧
    c2EmptyState.thresholdFor "s9" = 80 := by
  have hthr : c2State.thresholdFor c2Event.student_id = 75 := rfl
  constructor
  · have h := ((c2_threshold_check c2State c2Event).2.1 60 rfl rfl).1
      (by rw [hthr]; norm_num)
    rw [hthr] at h
    exact h
  · exact (c2_threshold_check c2EmptyState c2DefEvent).1 rfl

/-! ### Claim C3 -/

/-- C3: a quiz_attempted event with a score increments `attempts` by the
event's attempt count (read from the details payload, default 1), appends the
score and recomputes `average_score`; a quiz_attempted event without a score
skips the whole score-update step (attempts, scores, average all unchanged)
while the status transition and the last-activity/last-updated updates still
occur. -/
theorem c3_quiz_attempt_updates (tp : TopicProgressData) (e : ProgressEventInput)
    (hq : e.event_type = "quiz_attempted") :
    (∀ s : ℚ, e.score = some s →
      (tp.update_progress e).attempts = tp.attempts + attemptCount e ∧
      (tp.update_progress e).scores = tp.scores ++ [s] ∧
      (tp.update_progress e).average_score = some (round1 (listMean (tp.scores ++ [s]))) ∧
      (tp.update_progress e).last_activity_type = some "quiz_attempted" ∧
      (tp.update_progress e).last_updated = e.timestamp) ∧
    (e.score = none →
      (tp.update_progress e).attempts = tp.attempts ∧
      (tp.update_progress e).scores = tp.scores ∧
      (tp.update_progress e).average_score = tp.average_score ∧
      (tp.update_progress e).last_activity_type = some "quiz_attempted" ∧
      (tp.update_progress e).last_updated = e.timestamp ∧
      (tp.update_progress e).status =
        (if tp.status = "Not Started" then "In Progress" else tp.status)) := by
  constructor
  · intro s hs
    by_cases hns : tp.status = "Not Started" <;>
      simp [TopicProgressData.update_progress, hq, hs, hns]
  · intro hs
    by_cases hns : tp.status = "Not Started" <;>
      simp [TopicProgressData.update_progress, hq, hs, hns]

/-- C3, witness: both branches at concrete inputs — a scored quiz event with
`attempts: 3` in its details adds 3 attempts, appends the score and recomputes
the average; a score-free quiz event changes none of those but still stamps
kind and timestamp and starts the topic. -/
theorem c3_quiz_attempt_updates_witness :
    (({ topic_id := "t", scores := [50], attempts := 1 : TopicProgressData}).update_progress
        { student_id := "s", topic_id := "t", event_type := "quiz_attempted",
          timestamp := 4, score := some 70, details := some (some 3) }).attempts = 4 ∧
    (({ topic_id := "t", scores := [50], attempts := 1 : TopicProgressData}).update_progress
        { student_id := "s", topic_id := "t", event_type := "quiz_attempted",
          timestamp := 4, score := some 70, details := some (some 3) }).average_score
      = some 60 ∧
    (({ topic_id := "t" : TopicProgressData }).update_progress
        { student_id := "s", topic_id := "t", event_type := "quiz_attempted",
          timestamp := 5 }).attempts = 0 ∧
    (({ topic_id := "t" : TopicProgressData }).update_progress
        { student_id := "s", topic_id := "t", event_type := "quiz_attempted",
          timestamp := 5 }).status = "In Progress" := by
  have h1 := (c3_quiz_attempt_updates
    { topic_id := "t", scores := [50], attempts := 1 }
    { student_id := "s", topic_id := "t", event_type := "quiz_attempted",
      timestamp := 4, score := some 70, details := some (some 3) } rfl).1 70 rfl
  have h2 := (c3_quiz_attempt_updates { topic_id := "t" }
    { student_id := "s", topic_id := "t", event_type := "quiz_attempted",
      timestamp := 5 } rfl).2 rfl
  refine ⟨?_, ?_, ?_, ?_⟩
  · rw [h1.1]; decide
  · rw [h1.2.2.1]
    norm_num [round1, roundHalfEven, listMean]
  · rw [h2.1]
  · rw [h2.2.2.2.2.2]; decide

/-! ### Claim C4 -/

theorem update_progress_scores (tp : TopicProgressData) (e : ProgressEventInput) :
    (tp.update_progress e).scores =
      tp.scores ++
        (if e.event_type = "quiz_attempted"
         then (match e.score with | some s => [s] | none => []) else []) := by
  by_cases hq : e.event_type = "quiz_attempted" <;>
    by_cases hc : e.event_type = "topic_completed" <;>
    by_cases hn : e.event_type = "needs_review" <;>
    by_cases hsd : e.event_type = "session_duration_minutes" <;>
    by_cases hns : tp.status = "Not Started" <;>
    cases hsc : e.score <;> cases hdm : e.duration_minutes <;>
    simp_all [TopicProgressData.update_progress]

theorem update_progress_avgInv (tp : TopicProgressData) (e : ProgressEventInput)
    (h : avgInv tp) : avgInv (tp.update_progress e) := by
  have hsc := update_progress_scores tp e
  by_cases hq : e.event_type = "quiz_attempted" <;>
    by_cases hc : e.event_type = "topic_completed" <;>
    by_cases hn : e.event_type = "needs_review" <;>
    by_cases hsd : e.event_type = "session_duration_minutes" <;>
    by_cases hns : tp.status = "Not Started" <;>
    cases hscore : e.score <;> cases hdm : e.duration_minutes <;>
    simp_all [TopicProgressData.update_progress, avgInv]

theorem thresholdCheck_cases (threshold : ℚ) (e : ProgressEventInput)
    (tp1 : TopicProgressData) :
    (thresholdCheck threshold e tp1).1 = tp1 ∨
    (thresholdCheck threshold e tp1).1 = { tp1 with status := "Needs Review" } := by
  by_cases hq : e.event_type = "quiz_attempted"
  · cases hsc : e.score with
    | none => simp [thresholdCheck, hq, hsc]
    | some s =>
        by_cases hlt : s < threshold <;> simp [thresholdCheck, hq, hsc, hlt]
  · simp [thresholdCheck, hq]

theorem thresholdCheck_avgInv (threshold : ℚ) (e : ProgressEventInput)
    (tp1 : TopicProgressData) (h : avgInv tp1) :
    avgInv (thresholdCheck threshold e tp1).1 := by
  rcases thresholdCheck_cases threshold e tp1 with hc | hc <;> rw [hc] <;>
    simp_all [avgInv]

theorem readTopic_scores (st : ProcState) (e : ProgressEventInput) :
    (readTopic st e).scores = scoresAt st e.student_id e.topic_id := by
  rw [readTopic, scoresAt, ProcState.topicRec]
  cases h : mlookup (st.studentData e.student_id) e.topic_id <;> simp [h]

theorem readTopic_avgInv (st : ProcState) (e : ProgressEventInput)
    (h : storeAvgInv st) : avgInv (readTopic st e) := by
  rw [readTopic]
  cases hl : mlookup (st.studentData e.student_id) e.topic_id with
  | none => simp [avgInv]
  | some tp => exact h e.student_id e.topic_id tp hl

theorem scoresAt_update (st : ProcState) (e : ProgressEventInput) (sid tid : String) :
    scoresAt (update_topic_progress st e).1 sid tid =
      scoresAt st sid tid ++
        (if e.student_id = sid ∧ e.topic_id = tid ∧ e.event_type = "quiz_attempted"
         then (match e.score with | some s => [s] | none => []) else []) := by
  by_cases hm : sid = e.student_id ∧ tid = e.topic_id
  · obtain ⟨hs, ht⟩ := hm
    subst hs; subst ht
    rw [scoresAt, topicRec_update_self]
    rcases thresholdCheck_cases (st.thresholdFor e.student_id) e
        ((readTopic st e).update_progress e) with hc | hc <;>
      rw [hc] <;>
      simp [update_progress_scores, readTopic_scores]
  · rw [scoresAt, topicRec_update_other st e sid tid hm, ← scoresAt]
    have hcond : ¬(e.student_id = sid ∧ e.topic_id = tid ∧
        e.event_type = "quiz_attempted") := by
      intro ⟨h1, h2, _⟩
      exact hm ⟨h1.symm, h2.symm⟩
    simp [hcond]

theorem scoresAt_processEvents (evs : List ProgressEventInput) (st : ProcState)
    (sid tid : String) :
    scoresAt (processEvents st evs) sid tid =
      scoresAt st sid tid ++ quizScoresOf evs sid tid := by
  induction evs generalizing st with
  | nil => simp [processEvents, quizScoresOf]
  | cons e evs ih =>
      have hstep : processEvents st (e :: evs) =
          processEvents (update_topic_progress st e).1 evs := by
        simp [processEvents]
      rw [hstep, ih, scoresAt_update, List.append_assoc]
      congr 1
      conv_rhs => rw [quizScoresOf, List.filterMap_cons]
      rw [← quizScoresOf]
      by_cases hcond : e.student_id = sid ∧ e.topic_id = tid ∧
          e.event_type = "quiz_attempted"
      · cases hscore : e.score <;> simp [hcond, hscore]
      · simp [hcond]

theorem storeAvgInv_update (st : ProcState) (e : ProgressEventInput)
    (h : storeAvgInv st) : storeAvgInv (update_topic_progress st e).1 := by
  intro sid tid tp htp
  by_cases hm : sid = e.student_id ∧ tid = e.topic_id
  · obtain ⟨hs, ht⟩ := hm
    subst hs; subst ht
    rw [topicRec_update_self] at htp
    injection htp with htp
    subst htp
    exact thresholdCheck_avgInv _ _ _
      (update_progress_avgInv _ _ (readTopic_avgInv st e h))
  · rw [topicRec_update_other st e sid tid hm] at htp
    exact h sid tid tp htp

theorem storeAvgInv_processEvents (evs : List ProgressEventInput) (st : ProcState)
    (h : storeAvgInv st) : storeAvgInv (processEvents st evs) := by
  induction evs generalizing st with
  | nil => exact h
  | cons e evs ih =>
      have hstep : processEvents st (e :: evs) =
          processEvents (update_topic_progress st e).1 evs := by
        simp [processEvents]
      rw [hstep]
      exact ih _ (storeAvgInv_update st e h)

/-- C4: starting from a store with no events (any saved settings), after any
sequence of applied events the scores stored for a (student, topic) pair are
exactly the scores of that pair's quiz_attempted events that carried a score,
in arrival order; and every reachable record's average_score is the
arithmetic mean of its scores rounded to one decimal, being None exactly when
the scores list is empty. -/
theorem c4_scores_and_average (sdb : List (String × StudentProgressSettings))
    (evs : List ProgressEventInput) (sid tid : String) :
    scoresAt (processEvents { student_settings_db := sdb } evs) sid tid =
      quizScoresOf evs sid tid ∧
    ∀ tp, (processEvents { student_settings_db := sdb } evs).topicRec sid tid = some tp →
      tp.average_score =
        (if tp.scores.isEmpty then none else some (round1 (listMean tp.scores))) ∧
      (tp.average_score = none ↔ tp.scores = []) := by
  have hbase : storeAvgInv { student_settings_db := sdb } := by
    intro sid1 tid1 tp1 h1
    simp [ProcState.topicRec, ProcState.studentData, mlookup] at h1
  constructor
  · rw [scoresAt_processEvents]
    simp [scoresAt, ProcState.topicRec, ProcState.studentData, mlookup]
  · intro tp htp
    have hinv := storeAvgInv_processEvents evs _ hbase sid tid tp htp
    rw [avgInv] at hinv
    refine ⟨hinv, ?_⟩
    rw [hinv]
    by_cases hsc : tp.scores.isEmpty <;>
      simp_all [List.isEmpty_iff]

/-- C4, witness: one scored quiz event from an empty store — the stored
scores are exactly the event's score and the stored record satisfies the
average invariant. -/
theorem c4_scores_and_average_witness :
    scoresAt (processEvents { student_settings_db := [] } [c4Event]) "s4" "t4" = [60] ∧
    c4Topic.average_score =
      (if c4Topic.scores.isEmpty then none
       else some (round1 (listMean c4Topic.scores))) := by
  have h := c4_scores_and_average [] [c4Event] "s4" "t4"
  constructor
  · rw [h.1]
    decide
  · refine (h.2 c4Topic ?_).1
    show ProcState.topicRec _ "s4" "t4" = some c4Topic
    norm_num [processEvents, update_topic_progress, TopicProgressData.update_progress,
      thresholdCheck, ProcState.topicRec, ProcState.studentData, ProcState.thresholdFor,
      mlookup, minsert, attemptCount, c4Event, c4Topic, round1, roundHalfEven, listMean,
      TopicProgressData.mk.injEq]

/-! ### Summary generator lemmas -/

theorem get_progress_summary_err (st : ProcState) (sid : String) (avail : Bool)
    (res : Except Unit String)
    (h : (st.studentData sid).isEmpty ∧ mlookup st.student_settings_db sid = none) :
    get_progress_summary st sid avail res = Except.error () := by
  simp only [get_progress_summary]
  rw [if_pos h]

theorem get_progress_summary_ok (st : ProcState) (sid : String) (avail : Bool)
    (res : Except Unit String)
    (h : ¬((st.studentData sid).isEmpty ∧ mlookup st.student_settings_db sid = none)) :
    get_progress_summary st sid avail res = Except.ok
      { student_id := sid
        overall_completion_percent :=
          round1 (if 0 < (topicsOf st sid).length then
            ((((topicsOf st sid).foldl (summaryStep (st.thresholdFor sid))
                {}).completed_topics : ℚ) / ((topicsOf st sid).length : ℚ)) * 100
          else 0)
        average_score_all :=
          (if ((topicsOf st sid).foldl (summaryStep (st.thresholdFor sid))
              {}).all_scores.isEmpty then none
           else some (round1 (listMean (((topicsOf st sid).foldl
             (summaryStep (st.thresholdFor sid)) {}).all_scores))))
        total_study_time_minutes :=
          ((topicsOf st sid).foldl (summaryStep (st.thresholdFor sid))
            {}).total_study_time
        topics_progress := topicsOf st sid
        identified_weaknesses :=
          ((topicsOf st sid).foldl (summaryStep (st.thresholdFor sid))
            {}).identified_weaknesses.toFinset
        llm_insights := some
          (if avail then
            match res with
            | Except.ok s => s
            | Except.error _ => llmErrorFallback
           else llmUnavailableFallback) } := by
  simp only [get_progress_summary]
  rw [if_neg h]
  rfl

theorem summaryStep_fields (threshold : ℚ) (acc : SummaryAcc)
    (topic : TopicProgressData) :
    (summaryStep threshold acc topic).completed_topics =
      acc.completed_topics + (if topic.status = "Completed" then 1 else 0) ∧
    (summaryStep threshold acc topic).all_scores = acc.all_scores ++ topic.scores ∧
    (summaryStep threshold acc topic).total_study_time =
      acc.total_study_time + topic.total_time_minutes ∧
    (summaryStep threshold acc topic).identified_weaknesses =
      acc.identified_weaknesses ++
        (if (topic.status == "Needs Review") ||
            (match topic.average_score with
             | some a => decide (a < threshold)
             | none => false) then [topic.topic_id] else []) := by
  by_cases h1 : topic.status = "Completed" <;>
    by_cases h2 : topic.scores.isEmpty <;>
    cases h3 : (topic.status == "Needs Review") ||
      (match topic.average_score with
       | some a => decide (a < threshold)
       | none => false) <;>
    simp_all [summaryStep, List.isEmpty_iff]

theorem summaryFold_completed (threshold : ℚ) (topics : List TopicProgressData)
    (acc : SummaryAcc) :
    (topics.foldl (summaryStep threshold) acc).completed_topics =
      acc.completed_topics +
        (topics.filter (fun t => t.status == "Completed")).length := by
  induction topics generalizing acc with
  | nil => simp
  | cons t ts ih =>
      rw [List.foldl_cons, ih, (summaryStep_fields threshold acc t).1,
        List.filter_cons]
      by_cases h : t.status = "Completed"
      · simp [h]
        omega
      · simp [h]

theorem summaryFold_scores (threshold : ℚ) (topics : List TopicProgressData)
    (acc : SummaryAcc) :
    (topics.foldl (summaryStep threshold) acc).all_scores =
      acc.all_scores ++ (topics.map TopicProgressData.scores).flatten := by
  induction topics generalizing acc with
  | nil => simp
  | cons t ts ih =>
      rw [List.foldl_cons, ih, (summaryStep_fields threshold acc t).2.1]
      simp [List.append_assoc]

theorem summaryFold_time (threshold : ℚ) (topics : List TopicProgressData)
    (acc : SummaryAcc) :
    (topics.foldl (summaryStep threshold) acc).total_study_time =
      acc.total_study_time +
        (topics.map TopicProgressData.total_time_minutes).sum := by
  induction topics generalizing acc with
  | nil => simp
  | cons t ts ih =>
      rw [List.foldl_cons, ih, (summaryStep_fields threshold acc t).2.2.1]
      simp [Nat.add_assoc]

theorem weakFlag_iff (threshold : ℚ) (tp : TopicProgressData) :
    (((tp.status == "Needs Review") ||
      (match tp.average_score with
       | some a => decide (a < threshold)
       | none => false)) = true) ↔
      (tp.status = "Needs Review" ∨
       ∃ a, tp.average_score = some a ∧ a < threshold) := by
  cases havg : tp.average_score <;> simp [havg]

theorem summaryFold_weak_mem (threshold : ℚ) (topics : List TopicProgressData)
    (acc : SummaryAcc) (t : String) :
    t ∈ (topics.foldl (summaryStep threshold) acc).identified_weaknesses ↔
      t ∈ acc.identified_weaknesses ∨
        ∃ tp ∈ topics, tp.topic_id = t ∧
          (tp.status = "Needs Review" ∨
           ∃ a, tp.average_score = some a ∧ a < threshold) := by
  induction topics generalizing acc with
  | nil => simp
  | cons tp ts ih =>
      rw [List.foldl_cons, ih, (summaryStep_fields threshold acc tp).2.2.2]
      by_cases hcond : tp.status = "Needs Review" ∨
          ∃ a, tp.average_score = some a ∧ a < threshold
      · rw [if_pos ((weakFlag_iff threshold tp).mpr hcond)]
        simp only [List.mem_append, List.mem_singleton, List.mem_cons]
        constructor
        · rintro ((h | (h | h)) | h)
          · exact Or.inl h
          · subst h
            exact Or.inr ⟨tp, Or.inl rfl, rfl, hcond⟩
          · exact absurd h (List.not_mem_nil t)
          · rcases h with ⟨x, hx, hxt, hc⟩
            exact Or.inr ⟨x, Or.inr hx, hxt, hc⟩
        · rintro (h | ⟨x, hx | hx, hxt, hc⟩)
          · exact Or.inl (Or.inl h)
          · subst hx
            exact Or.inl (Or.inr (Or.inl hxt.symm))
          · exact Or.inr ⟨x, hx, hxt, hc⟩
      · rw [if_neg (fun hh => hcond ((weakFlag_iff threshold tp).mp hh))]
        simp only [List.append_nil, List.mem_cons]
        constructor
        · rintro (h | h)
          · exact Or.inl h
          · rcases h with ⟨x, hx, hxt, hc⟩
            exact Or.inr ⟨x, Or.inr hx, hxt, hc⟩
        · rintro (h | ⟨x, hx | hx, hxt, hc⟩)
          · exact Or.inl h
          · subst hx
            exact absurd hc hcond
          · exact Or.inr ⟨x, hx, hxt, hc⟩

/-! ### Claim C5 -/

/-- C5: for every known student, membership in the summary's
identified_weaknesses set is exactly: some stored topic has this topic id and
either status Needs Review or a non-None average strictly below the student's
success threshold. -/
theorem c5_identified_weaknesses (st : ProcState) (sid : String) (avail : Bool)
    (res : Except Unit String) (summary : ProgressSummaryOutput)
    (h : get_progress_summary st sid avail res = Except.ok summary) :
    ∀ t : String, t ∈ summary.identified_weaknesses ↔
      ∃ tp ∈ topicsOf st sid, tp.topic_id = t ∧
        (tp.status = "Needs Review" ∨
         ∃ a, tp.average_score = some a ∧ a < st.thresholdFor sid) := by
  by_cases hnf : (st.studentData sid).isEmpty ∧ mlookup st.student_settings_db sid = none
  · rw [get_progress_summary_err st sid avail res hnf] at h
    exact absurd h (by simp)
  · rw [get_progress_summary_ok st sid avail res hnf] at h
    injection h with h
    subst h
    intro t
    simp only [List.mem_toFinset]
    rw [summaryFold_weak_mem]
    simp

/-- The stored record used by the C5 witness: a Needs Review topic. -/
def c5Topic : TopicProgressData :=
  { topic_id := "t5", status := "Needs Review", attempts := 1, scores := [60],
    average_score := some 60, total_time_minutes := 0,
    last_activity_type := some "quiz_attempted", last_updated := 1 }

/-- A state holding just that Needs Review topic for student `s5`. -/
def c5State : ProcState := { progress_db := [("s5", [("t5", c5Topic)])] }

/-- The summary the generator produces for `c5State` with the collaborator
not configured. -/
def c5Summary : ProgressSummaryOutput :=
  { student_id := "s5", overall_completion_percent := 0,
    average_score_all := some 60, total_study_time_minutes := 0,
    topics_progress := [c5Topic], identified_weaknesses := {"t5"},
    llm_insights := some llmUnavailableFallback }

/-- C5, witness: the Needs Review topic `t5` is in the weakness set of the
concrete summary. -/
theorem c5_identified_weaknesses_witness : "t5" ∈ c5Summary.identified_weaknesses := by
  refine (c5_identified_weaknesses c5State "s5" false (Except.error ()) c5Summary
    ?_ "t5").mpr ⟨c5Topic, ?_, rfl, Or.inl rfl⟩
  · rw [get_progress_summary_ok c5State "s5" false (Except.error ()) (by decide)]
    simp [c5Summary, c5Topic, c5State, topicsOf, ProcState.studentData,
      ProcState.thresholdFor, mlookup, summaryStep,
      ProgressSummaryOutput.mk.injEq]
    norm_num [round1, roundHalfEven, listMean]
  · simp [topicsOf, c5State, ProcState.studentData, mlookup]

/-! ### Claim C6 -/

/-- C6: the summary generator fails (NotFound) exactly when the student has
neither stored settings nor any topic records; with stored settings but no
topic records it succeeds with completion 0.0, overall average None and no
topics. -/
theorem c6_summary_not_found (st : ProcState) (sid : String) (avail : Bool)
    (res : Except Unit String) :
    (get_progress_summary st sid avail res = Except.error () ↔
      topicsOf st sid = [] ∧ mlookup st.student_settings_db sid = none) ∧
    (∀ s0 summary, mlookup st.student_settings_db sid = some s0 →
      topicsOf st sid = [] →
      get_progress_summary st sid avail res = Except.ok summary →
      summary.overall_completion_percent = 0 ∧
      summary.average_score_all = none ∧
      summary.topics_progress = []) := by
  have hiff : topicsOf st sid = [] ↔ (st.studentData sid).isEmpty = true := by
    rw [topicsOf, List.isEmpty_iff, List.map_eq_nil_iff]
  constructor
  · constructor
    · intro herr
      by_cases hnf : (st.studentData sid).isEmpty ∧
          mlookup st.student_settings_db sid = none
      · exact ⟨hiff.mpr hnf.1, hnf.2⟩
      · rw [get_progress_summary_ok st sid avail res hnf] at herr
        exact absurd herr (by simp)
    · rintro ⟨h1, h2⟩
      exact get_progress_summary_err st sid avail res ⟨hiff.mp h1, h2⟩
  · intro s0 summary hs0 hempty hok
    have hnf : ¬((st.studentData sid).isEmpty ∧
        mlookup st.student_settings_db sid = none) := by
      rintro ⟨-, hcontra⟩
      rw [hs0] at hcontra
      exact absurd hcontra (by simp)
    rw [get_progress_summary_ok st sid avail res hnf] at hok
    injection hok with hok
    subst hok
    refine ⟨?_, ?_, ?_⟩
    · simp only [hempty]
      norm_num [round1, roundHalfEven]
    · simp [hempty]
    · simp [hempty]

/-- A state with saved settings for `s6` and no events. -/
def c6State : ProcState :=
  { student_settings_db := [("s6", { student_id := "s6" })] }

/-- The summary the generator produces for `c6State`. -/
def c6Summary : ProgressSummaryOutput :=
  { student_id := "s6", overall_completion_percent := 0,
    average_score_all := none, total_study_time_minutes := 0,
    topics_progress := [], identified_weaknesses := ∅,
    llm_insights := some llmUnavailableFallback }

/-- C6, witness: a wholly unknown student gets the NotFound error, and the
settings-only student `s6` gets the empty summary without error. -/
theorem c6_summary_not_found_witness :
    get_progress_summary ({} : ProcState) "zz" false (Except.error ()) =
      Except.error () ∧
    (c6Summary.overall_completion_percent = 0 ∧
     c6Summary.average_score_all = none ∧
     c6Summary.topics_progress = []) := by
  constructor
  · exact (c6_summary_not_found ({} : ProcState) "zz" false
      (Except.error ())).1.mpr ⟨rfl, rfl⟩
  · refine (c6_summary_not_found c6State "s6" false (Except.error ())).2
      { student_id := "s6" } c6Summary rfl rfl ?_
    rw [get_progress_summary_ok c6State "s6" false (Except.error ()) (by decide)]
    norm_num [c6Summary, c6State, topicsOf, ProcState.studentData,
      ProcState.thresholdFor, mlookup, round1, roundHalfEven,
      ProgressSummaryOutput.mk.injEq]

/-! ### Claim C7 -/

/-- C7: for every known student, overall completion is completed count over
total topics times 100 rounded to one decimal (exactly 0 with no topics), the
overall average is the rounded mean of all topics' scores concatenated (None
when no scores exist anywhere), and total study time is the sum of the
topics' accumulated minutes. -/
theorem c7_overall_metrics (st : ProcState) (sid : String) (avail : Bool)
    (res : Except Unit String) (summary : ProgressSummaryOutput)
    (h : get_progress_summary st sid avail res = Except.ok summary) :
    (topicsOf st sid = [] → summary.overall_completion_percent = 0) ∧
    (topicsOf st sid ≠ [] → summary.overall_completion_percent =
      round1 (((((topicsOf st sid).filter
          (fun t => t.status == "Completed")).length : ℚ) /
        ((topicsOf st sid).length : ℚ)) * 100)) ∧
    summary.average_score_all =
      (if ((topicsOf st sid).map TopicProgressData.scores).flatten.isEmpty then none
       else some (round1 (listMean
         ((topicsOf st sid).map TopicProgressData.scores).flatten))) ∧
    summary.total_study_time_minutes =
      ((topicsOf st sid).map TopicProgressData.total_time_minutes).sum := by
  by_cases hnf : (st.studentData sid).isEmpty ∧ mlookup st.student_settings_db sid = none
  · rw [get_progress_summary_err st sid avail res hnf] at h
    exact absurd h (by simp)
  · rw [get_progress_summary_ok st sid avail res hnf] at h
    injection h with h
    subst h
    refine ⟨?_, ?_, ?_, ?_⟩
    · intro hempty
      simp only [hempty]
      norm_num [round1, roundHalfEven]
    · intro hne
      have hlen : 0 < (topicsOf st sid).length := List.length_pos.mpr hne
      simp only [if_pos hlen, summaryFold_completed]
      norm_num
    · rw [summaryFold_scores]
      simp
    · rw [summaryFold_time]
      simp

/-- The two-topic state used by the C7 witness: one Completed topic with a
score of 90 and 30 tracked minutes, one In Progress topic with no scores. -/
def c7State : ProcState :=
  { progress_db := [("s7",
      [("a", { topic_id := "a", status := "Completed", attempts := 1,
               scores := [90], average_score := some 90,
               total_time_minutes := 30,
               last_activity_type := some "quiz_attempted", last_updated := 3 }),
       ("b", { topic_id := "b", status := "In Progress", attempts := 0,
               scores := [], average_score := none, total_time_minutes := 12,
               last_activity_type := some "session_duration_minutes",
               last_updated := 4 })])] }

/-- The summary the generator produces for `c7State`. -/
def c7Summary : ProgressSummaryOutput :=
  { student_id := "s7", overall_completion_percent := 50,
    average_score_all := some 90, total_study_time_minutes := 42,
    topics_progress := topicsOf c7State "s7", identified_weaknesses := ∅,
    llm_insights := some llmUnavailableFallback }

/-- C7, witness: at the concrete two-topic state, completion is 50.0, the
overall average is 90 and study time 42 minutes, as the theorem's formulas
dictate. -/
theorem c7_overall_metrics_witness :
    c7Summary.overall_completion_percent =
      round1 (((((topicsOf c7State "s7").filter
          (fun t => t.status == "Completed")).length : ℚ) /
        ((topicsOf c7State "s7").length : ℚ)) * 100) ∧
    c7Summary.average_score_all =
      (if ((topicsOf c7State "s7").map TopicProgressData.scores).flatten.isEmpty
       then none
       else some (round1 (listMean
         ((topicsOf c7State "s7").map TopicProgressData.scores).flatten))) ∧
    c7Summary.total_study_time_minutes =
      ((topicsOf c7State "s7").map TopicProgressData.total_time_minutes).sum := by
  have h := c7_overall_metrics c7State "s7" false (Except.error ()) c7Summary ?hok
  case hok =>
    rw [get_progress_summary_ok c7State "s7" false (Except.error ()) (by decide)]
    simp [c7Summary, c7State, topicsOf, ProcState.studentData,
      ProcState.thresholdFor, mlookup, summaryStep,
      ProgressSummaryOutput.mk.injEq]
    norm_num [round1, roundHalfEven, listMean]
  exact ⟨h.2.1 (by decide), h.2.2.1, h.2.2.2⟩

/-! ### Claim C8 -/

/-- C8: for every known student the summary generator returns a summary —
never the NotFound error — whatever the text-generation collaborator does;
when the collaborator is not configured, or its invocation fails, the insight
text is the corresponding fixed fallback string. -/
theorem c8_insights_fallback (st : ProcState) (sid : String) (avail : Bool)
    (res : Except Unit String)
    (known : ¬(topicsOf st sid = [] ∧ mlookup st.student_settings_db sid = none)) :
    get_progress_summary st sid avail res ≠ Except.error () ∧
    (∀ summary, get_progress_summary st sid avail res = Except.ok summary →
      (avail = false → summary.llm_insights = some llmUnavailableFallback) ∧
      (avail = true → res = Except.error () →
        summary.llm_insights = some llmErrorFallback)) := by
  have hnf : ¬((st.studentData sid).isEmpty ∧
      mlookup st.student_settings_db sid = none) := by
    rintro ⟨h1, h2⟩
    refine known ⟨?_, h2⟩
    rw [topicsOf, List.map_eq_nil_iff, ← List.isEmpty_iff]
    exact h1
  constructor
  · rw [get_progress_summary_ok st sid avail res hnf]
    simp
  · intro summary hok
    rw [get_progress_summary_ok st sid avail res hnf] at hok
    injection hok with hok
    subst hok
    constructor
    · intro havail
      simp [havail]
    · intro havail hres
      simp [havail, hres]

/-- C8, witness: for the settings-only student `s6`, the generator returns a
summary both when the collaborator is unconfigured and when its invocation
fails, with the corresponding fixed fallback strings. -/
theorem c8_insights_fallback_witness :
    get_progress_summary c6State "s6" true (Except.error ()) ≠ Except.error () ∧
    (get_progress_summary c6State "s6" false (Except.error ()) ≠ Except.error ()) := by
  have hknown : ¬(topicsOf c6State "s6" = [] ∧
      mlookup c6State.student_settings_db "s6" = none) := by
    rintro ⟨-, hcontra⟩
    simp [c6State, mlookup] at hcontra
  exact ⟨(c8_insights_fallback c6State "s6" true (Except.error ()) hknown).1,
    (c8_insights_fallback c6State "s6" false (Except.error ()) hknown).1⟩

/-! ### Claim C9 -/

/-- C9: save_settings fails with the validation error exactly when the
payload's student id differs from the path id; on failure the settings store
is unchanged; on success the settings are stored under the path id (other
keys untouched) and returned unchanged. -/
theorem c9_save_settings_validation (db : List (String × StudentProgressSettings))
    (sid : String) (s : StudentProgressSettings) :
    ((save_settings db sid s).2 = Except.error () ↔ sid ≠ s.student_id) ∧
    (sid ≠ s.student_id → (save_settings db sid s).1 = db) ∧
    (sid = s.student_id →
      (save_settings db sid s).2 = Except.ok s ∧
      mlookup (save_settings db sid s).1 sid = some s ∧
      ∀ k, k ≠ sid → mlookup (save_settings db sid s).1 k = mlookup db k) := by
  by_cases h : sid = s.student_id
  · subst h
    refine ⟨?_, ?_, ?_⟩
    · simp [save_settings]
    · intro hne
      exact absurd rfl hne
    · intro _
      refine ⟨?_, ?_, ?_⟩
      · simp [save_settings]
      · simp [save_settings, mlookup_minsert_self]
      · intro k hk
        simp [save_settings, mlookup_minsert_ne _ _ _ _ hk]
  · refine ⟨?_, ?_, ?_⟩
    · simp [save_settings, h]
    · intro _
      simp [save_settings, h]
    · intro heq
      exact absurd heq h

/-- C9, witness: a mismatched payload is rejected, a matching one is stored
and retrievable. -/
theorem c9_save_settings_validation_witness :
    (save_settings [] "a" { student_id := "b" }).2 = Except.error () ∧
    mlookup (save_settings [] "a" { student_id := "a" }).1 "a" =
      some { student_id := "a" } := by
  constructor
  · exact (c9_save_settings_validation [] "a" { student_id := "b" }).1.mpr (by decide)
  · exact ((c9_save_settings_validation [] "a" { student_id := "a" }).2.2 rfl).2.1

/-! ### Claim C10 -/

theorem mlookup_mem {α : Type} (m : List (String × α)) (k : String) (v : α)
    (h : mlookup m k = some v) : (k, v) ∈ m := by
  induction m with
  | nil => cases h
  | cons p rest ih =>
      obtain ⟨k1, w⟩ := p
      by_cases hk : k = k1
      · subst hk
        rw [mlookup, if_pos rfl] at h
        injection h with h
        subst h
        exact List.mem_cons_self _ _
      · rw [mlookup, if_neg hk] at h
        exact List.mem_cons_of_mem _ (ih h)

theorem minsert_mem {α : Type} (m : List (String × α)) (k : String) (v : α)
    (q : String × α) (h : q ∈ minsert m k v) : q ∈ m ∨ q = (k, v) := by
  induction m with
  | nil =>
      simp [minsert] at h
      exact Or.inr h
  | cons p rest ih =>
      obtain ⟨k1, w⟩ := p
      by_cases hk : k = k1
      · rw [minsert, if_pos hk] at h
        rcases List.mem_cons.mp h with h | h
        · subst hk
          exact Or.inr h
        · exact Or.inl (List.mem_cons_of_mem _ h)
      · rw [minsert, if_neg hk] at h
        rcases List.mem_cons.mp h with h | h
        · exact Or.inl (h ▸ List.mem_cons_self _ _)
        · rcases ih h with h | h
          · exact Or.inl (List.mem_cons_of_mem _ h)
          · exact Or.inr h

theorem update_progress_status_ne (tp : TopicProgressData) (e : ProgressEventInput) :
    (tp.update_progress e).status ≠ "Not Started" := by
  rw [update_progress_status]
  split_ifs with h1 h2 h3 <;> simp_all

theorem thresholdCheck_status_ne (threshold : ℚ) (e : ProgressEventInput)
    (tp1 : TopicProgressData) (h : tp1.status ≠ "Not Started") :
    (thresholdCheck threshold e tp1).1.status ≠ "Not Started" := by
  rcases thresholdCheck_cases threshold e tp1 with hc | hc <;> rw [hc] <;> simp_all

theorem studentData_mem_inv (st : ProcState) (hinv : storeStatusInv st) (sid : String) :
    ∀ q ∈ st.studentData sid, q.2.status ≠ "Not Started" := by
  rw [ProcState.studentData]
  cases hl : mlookup st.progress_db sid with
  | none => simp
  | some l =>
      intro q hq
      exact hinv (sid, l) (mlookup_mem _ _ _ hl) q hq

theorem storeStatusInv_update (st : ProcState) (e : ProgressEventInput)
    (h : storeStatusInv st) : storeStatusInv (update_topic_progress st e).1 := by
  intro p hp q hq
  simp only [update_topic_progress] at hp
  rcases minsert_mem _ _ _ p hp with hmem | hmem
  · exact h p hmem q hq
  · subst hmem
    rcases minsert_mem _ _ _ q hq with hqm | hqm
    · exact studentData_mem_inv st h e.student_id q hqm
    · subst hqm
      exact thresholdCheck_status_ne _ _ _ (update_progress_status_ne _ _)

theorem storeStatusInv_processEvents (evs : List ProgressEventInput) (st : ProcState)
    (h : storeStatusInv st) : storeStatusInv (processEvents st evs) := by
  induction evs generalizing st with
  | nil => exact h
  | cons e evs ih =>
      have hstep : processEvents st (e :: evs) =
          processEvents (update_topic_progress st e).1 evs := by
        simp [processEvents]
      rw [hstep]
      exact ih _ (storeStatusInv_update st e h)

/-- C10: starting from a store with no events (any saved settings), after any
sequence of applied events every reachable topic record — whether read from
the store or listed in a generated summary — has a status other than
Not Started: the event that lazily creates a record immediately moves it to
In Progress, Completed or Needs Review. -/
theorem c10_status_never_not_started (sdb : List (String × StudentProgressSettings))
    (evs : List ProgressEventInput) :
    (∀ sid tid tp,
      (processEvents { student_settings_db := sdb } evs).topicRec sid tid = some tp →
      tp.status ≠ "Not Started") ∧
    (∀ sid avail res summary,
      get_progress_summary (processEvents { student_settings_db := sdb } evs)
          sid avail res = Except.ok summary →
      ∀ tp ∈ summary.topics_progress, tp.status ≠ "Not Started") := by
  have hbase : storeStatusInv { student_settings_db := sdb } := by
    intro p hp
    exact absurd hp (List.not_mem_nil p)
  have hinv := storeStatusInv_processEvents evs _ hbase
  constructor
  · intro sid tid tp htp
    rw [ProcState.topicRec] at htp
    exact studentData_mem_inv _ hinv sid (tid, tp) (mlookup_mem _ _ _ htp)
  · intro sid avail res summary hok tp htp
    by_cases hnf : ((processEvents { student_settings_db := sdb } evs).studentData
        sid).isEmpty ∧
        mlookup (processEvents { student_settings_db := sdb } evs).student_settings_db
          sid = none
    · rw [get_progress_summary_err _ sid avail res hnf] at hok
      exact absurd hok (by simp)
    · rw [get_progress_summary_ok _ sid avail res hnf] at hok
      injection hok with hok
      subst hok
      simp only [topicsOf] at htp
      obtain ⟨q, hq, hqe⟩ := List.mem_map.mp htp
      rw [← hqe]
      exact studentData_mem_inv _ hinv sid q hq

/-- C10, witness: after one completing event from an empty store, the stored
record's status is Completed, not Not Started. -/
theorem c10_status_never_not_started_witness :
    ({ topic_id := "tX", status := "Completed", attempts := 0, scores := [],
       average_score := none, total_time_minutes := 0,
       last_activity_type := some "topic_completed", last_updated := 2 }
      : TopicProgressData).status ≠ "Not Started" := by
  refine (c10_status_never_not_started [] [c10Event]).1 "sX" "tX" _ ?_
  decide

end ProgressAgent
